import Mathlib

/-!
Verification development for the OSM-ptsn repository (three Python scripts:
`main.py`, `teste.py`, `teste2.py`).  Each Python function that the claims
refer to is shallowly embedded as a Lean definition under the namespace
`PTSN`, keeping the source's names and branch structure.  Network calls are
modelled by an explicit oracle argument; machine floats are modelled by `ℚ`
where only equality/branching matters (cache keys) and by `ℝ` where real
arithmetic matters (bearings, haversine).
-/

namespace PTSN

/-! ## Generic list/string helpers (Python `in` on strings) -/

/-- `comecaCom n h` is true when the character list `h` begins with `n`
(the building block of Python's substring test). -/
def comecaCom : List Char → List Char → Bool
  | [], _ => true
  | _ :: _, [] => false
  | a :: as, b :: bs => a == b && comecaCom as bs

/-- `contemSub n h` is Python's `n in h` on strings: `n` occurs as a
contiguous substring of `h`. -/
def contemSub (agulha : List Char) : List Char → Bool
  | [] => comecaCom agulha []
  | c :: resto => comecaCom agulha (c :: resto) || contemSub agulha resto

theorem comecaCom_iff (n : List Char) : ∀ h : List Char,
    comecaCom n h = true ↔ ∃ t, h = n ++ t := by
  induction n with
  | nil =>
    intro h
    simp [comecaCom]
  | cons a as ih =>
    intro h
    cases h with
    | nil =>
      simp [comecaCom]
    | cons b bs =>
      simp only [comecaCom, Bool.and_eq_true, beq_iff_eq, ih bs]
      constructor
      · rintro ⟨rfl, t, rfl⟩
        exact ⟨t, rfl⟩
      · rintro ⟨t, ht⟩
        cases ht
        exact ⟨rfl, t, rfl⟩

theorem contemSub_iff (n : List Char) : ∀ h : List Char,
    contemSub n h = true ↔ ∃ l1 l2, h = l1 ++ n ++ l2 := by
  intro h
  induction h with
  | nil =>
    simp only [contemSub, comecaCom_iff]
    constructor
    · rintro ⟨t, ht⟩
      exact ⟨[], t, ht⟩
    · rintro ⟨l1, l2, h12⟩
      rcases List.append_eq_nil.mp (List.append_eq_nil.mp h12.symm).1 with ⟨h1, h2⟩
      exact ⟨l2, by simp [h2, (List.append_eq_nil.mp h12.symm).2]⟩
  | cons c cs ih =>
    simp only [contemSub, Bool.or_eq_true, comecaCom_iff, ih]
    constructor
    · rintro (⟨t, ht⟩ | ⟨l1, l2, h12⟩)
      · exact ⟨[], t, by simpa using ht⟩
      · exact ⟨c :: l1, l2, by simp [h12]⟩
    · rintro ⟨l1, l2, h12⟩
      cases l1 with
      | nil =>
        exact Or.inl ⟨l2, by simpa using h12⟩
      | cons d ds =>
        rcases List.cons_eq_cons.mp (by simpa using h12) with ⟨rfl, hrest⟩
        exact Or.inr ⟨ds, l2, by simpa [List.append_assoc] using hrest⟩

/-! ## `main.py` — reverse geocoding with a dict cache, validity filter,
street itinerary -/

/-- Coordinates as seen by the cache and the loops: exact values (floats are
compared bit-exactly by the Python dict / sqlite key, which `ℚ` models). -/
abbrev CoordQ := ℚ × ℚ

/-- The address dictionary returned by Nominatim, restricted to the keys the
scripts read: `road` and (for `teste2.py`) `road_type`. -/
structure AddressM where
  road : Option String
  road_type : Option String
deriving DecidableEq

/-- Outcome of one `requests.get` to the reverse geocoder in `main.py`:
non-200 status, a body whose `.json()` raises `ValueError`, or a parsed
address dictionary. -/
inductive NetResultM where
  | httpError
  | malformed
  | ok : AddressM → NetResultM

/-- The module-level dict cache of `geocode_reverse`, keyed by `(lat, lon)`. -/
abbrev CacheM := List (CoordQ × AddressM)

def cacheLookupM : CacheM → CoordQ → Option AddressM
  | [], _ => none
  | (k, v) :: resto, c => if k = c then some v else cacheLookupM resto c

def cacheSaveM (cache : CacheM) (c : CoordQ) (v : AddressM) : CacheM :=
  (c, v) :: cache.filter (fun kv => kv.1 ≠ c)

/-- `main.py` `geocode_reverse(lat, lon, cache)`.  Returns the address (or
`none`), the updated cache, and whether a network request was issued.  The
network outcome is supplied by the `net` argument. -/
def geocode_reverse (lat lon : ℚ) (cache : CacheM) (net : NetResultM) :
    Option AddressM × CacheM × Bool :=
  match cacheLookupM cache (lat, lon) with
  | some a => (some a, cache, false)
  | none =>
    match net with
    | .httpError => (none, cache, true)
    | .malformed => (none, cache, true)
    | .ok addr =>
      match addr.road with
      | some r =>
        if r = "" then (none, cache, true)
        else (some addr, cacheSaveM cache (lat, lon) addr, true)
      | none => (none, cache, true)

/-- `main.py` `is_valid_street(address)`: rejects a missing address and any
road name containing `' e '` (case-insensitively) or `'&'`; otherwise
returns the road name (possibly empty). -/
def is_valid_street (address : Option AddressM) : Option String :=
  match address with
  | none => none
  | some a =>
    if contemSub " e ".toList ((a.road.getD "").toList.map Char.toLower)
        || contemSub "&".toList (a.road.getD "").toList then none
    else some (a.road.getD "")

/-- Loop body of `main.py` `get_street_itinerary`: threads the cache, the
`previous_street` variable, the accumulated street names and the count of
network requests through the list of `(lon, lat)` points. -/
def itineraryLoop (net : CoordQ → NetResultM) :
    List CoordQ → CacheM → Option String → List String → ℕ →
    List String × CacheM × ℕ
  | [], cache, _, acc, n => (acc, cache, n)
  | p :: resto, cache, prev, acc, n =>
    let r := geocode_reverse p.2 p.1 cache (net (p.2, p.1))
    let n' := n + (if r.2.2 then 1 else 0)
    match is_valid_street r.1 with
    | some s =>
      if s ≠ "" ∧ some s ≠ prev then
        itineraryLoop net resto r.2.1 (some s) (acc ++ [s]) n'
      else
        itineraryLoop net resto r.2.1 prev acc n'
    | none => itineraryLoop net resto r.2.1 prev acc n'

/-- `main.py` `get_street_itinerary(points)`, with `points` a list of
`(longitude, latitude)` pairs. -/
def get_street_itinerary (net : CoordQ → NetResultM) (cache : CacheM)
    (points : List CoordQ) : List String × CacheM × ℕ :=
  itineraryLoop net points cache none [] 0

/-! ## `teste2.py` — `BusRouteNavigator`: cached street lookup and the
street-run consolidator -/

/-- `BusRouteNavigator.UNSUITABLE_WAYS`. -/
def UNSUITABLE_WAYS : List String :=
  ["cycleway", "footway", "path", "pedestrian", "steps", "track",
   "bridleway", "raceway", "bus_guideway", "escape", "service"]

/-- The fields of the Nominatim JSON payload read by `get_street_info`. -/
structure NomData where
  extratags_highway : Option String
  address_road : Option String
  address_road_type : Option String
deriving DecidableEq

/-- Outcome of the Nominatim request in `get_street_info`:
`raise_for_status` / request exception, a `.json()` failure, or a payload. -/
inductive NetResult where
  | httpError
  | malformed
  | ok : NomData → NetResult

/-- The sqlite row stored per `(lat, lon)`: `street_name, highway_type`
(the timestamp plays no role in any behaviour the claims mention). -/
abbrev CacheT := List (CoordQ × (String × String))

def cacheLookup : CacheT → CoordQ → Option (String × String)
  | [], _ => none
  | (k, v) :: resto, c => if k = c then some v else cacheLookup resto c

/-- `INSERT OR REPLACE` on the `(lat, lon)` primary key. -/
def cacheSave (cache : CacheT) (c : CoordQ) (v : String × String) : CacheT :=
  (c, v) :: cache.filter (fun kv => kv.1 ≠ c)

/-- Python's `a or b` on optional strings, where `None` and `''` are falsy. -/
def pyOrStr (a b : Option String) : Option String :=
  match a with
  | some s => if s = "" then b else some s
  | none => b

/-- `highway_type or 'unknown'`: the string actually stored in the cache. -/
def orUnknown (o : Option String) : String :=
  match o with
  | some s => if s = "" then "unknown" else s
  | none => "unknown"

/-- Python's `ht in UNSUITABLE_WAYS` where `ht` may be `None`. -/
def htUnsuitable (o : Option String) : Bool :=
  match o with
  | some s => s ∈ UNSUITABLE_WAYS
  | none => false

/-- The street descriptor returned by `get_street_info`:
`{'name': ..., 'type': ...}`, where the type may be `None`. -/
structure StreetInfo where
  name : String
  type : Option String
deriving DecidableEq

/-- `teste2.py` `BusRouteNavigator.get_street_info(coord)` with
`coord = [longitude, latitude]`.  Returns the descriptor (or `none`), the
updated cache, and whether a network request was issued. -/
def get_street_info (cache : CacheT) (coord : CoordQ) (net : NetResult) :
    Option StreetInfo × CacheT × Bool :=
  match cacheLookup cache (coord.2, coord.1) with
  | some (street_name, highway_type) =>
    if highway_type ∈ UNSUITABLE_WAYS then (none, cache, false)
    else (some ⟨street_name, some highway_type⟩, cache, false)
  | none =>
    match net with
    | .httpError => (none, cache, true)
    | .malformed => (none, cache, true)
    | .ok d =>
      let highway_type := pyOrStr d.extratags_highway d.address_road_type
      if htUnsuitable highway_type then
        (none,
         cacheSave cache (coord.2, coord.1)
           ("VIA INADEQUADA", highway_type.getD ""), true)
      else
        let street_name := d.address_road.getD "Rua Desconhecida"
        (some ⟨street_name, highway_type⟩,
         cacheSave cache (coord.2, coord.1)
           (street_name, orUnknown highway_type), true)

/-- A processed GeoJSON segment as built by `_process_segments`:
`id`, coordinate polyline, precomputed `start`, `end` and `length`. -/
structure Segment where
  id : String
  coordinates : List CoordQ
  start : CoordQ
  stop : CoordQ
  length : ℝ

/-- A consolidated street entry of `get_bus_route_streets`. -/
structure StreetRun where
  name : String
  type : Option String
  length : ℝ
  segments : List String
  start : CoordQ
  stop : CoordQ

/-- `segment['coordinates'][len(...) // 2]`. -/
def midPoint (seg : Segment) : CoordQ :=
  seg.coordinates.getD (seg.coordinates.length / 2) (0, 0)

/-- Opening a new current street from a segment. -/
def novaRua (info : StreetInfo) (seg : Segment) : StreetRun :=
  ⟨info.name, info.type, seg.length, [seg.id], seg.start, seg.stop⟩

/-- Extending the current street with one more segment. -/
def estendeRua (cur : StreetRun) (seg : Segment) : StreetRun :=
  { cur with
      length := cur.length + seg.length
      segments := cur.segments ++ [seg.id]
      stop := seg.stop }

/-- The loop of `get_bus_route_streets`: walks the segments, resolving each
mid-point through `get_street_info` (threading the cache), skipping
unresolved segments and merging consecutive equal names. -/
noncomputable def busLoop (net : CoordQ → NetResult) :
    List Segment → CacheT → Option StreetRun → List StreetRun →
    List StreetRun × CacheT
  | [], cache, current, acc => (acc ++ current.toList, cache)
  | seg :: resto, cache, current, acc =>
    let r := get_street_info cache (midPoint seg) (net (midPoint seg))
    match r.1 with
    | none => busLoop net resto r.2.1 current acc
    | some info =>
      match current with
      | none => busLoop net resto r.2.1 (some (novaRua info seg)) acc
      | some cur =>
        if info.name = cur.name then
          busLoop net resto r.2.1 (some (estendeRua cur seg)) acc
        else
          busLoop net resto r.2.1 (some (novaRua info seg)) (acc ++ [cur])

/-- `teste2.py` `BusRouteNavigator.get_bus_route_streets()`. -/
noncomputable def get_bus_route_streets (net : CoordQ → NetResult)
    (cache : CacheT) (segments : List Segment) : List StreetRun × CacheT :=
  busLoop net segments cache none []

/-- The sum of `segment['length']` over the input segments that are *not*
skipped (those whose mid-point resolution returns a descriptor), following
the same cache evolution as the consolidation loop.  This is the
right-hand side of the spec's length-conservation property. -/
noncomputable def nonSkippedLength (net : CoordQ → NetResult) :
    CacheT → List Segment → ℝ
  | _, [] => 0
  | cache, seg :: resto =>
    let r := get_street_info cache (midPoint seg) (net (midPoint seg))
    match r.1 with
    | none => nonSkippedLength net r.2.1 resto
    | some _ => seg.length + nonSkippedLength net r.2.1 resto

/-! ## `teste.py` — bearings and direction-checked street extraction.
Floating point trigonometry is embedded over `ℝ`. -/

/-- `math.radians`. -/
noncomputable def radians (x : ℝ) : ℝ := x * Real.pi / 180

/-- `math.degrees`. -/
noncomputable def degrees (x : ℝ) : ℝ := x * 180 / Real.pi

/-- `math.atan2 a b`: the angle of the point `(b, a)`, in `(-π, π]`
(reals carry no signed zero, so the `-0.0` rows of the C function collapse
into the positive-zero ones). -/
noncomputable def atan2 (a b : ℝ) : ℝ :=
  if 0 < b then Real.arctan (a / b)
  else if b < 0 ∧ 0 ≤ a then Real.arctan (a / b) + Real.pi
  else if b < 0 ∧ a < 0 then Real.arctan (a / b) - Real.pi
  else if b = 0 ∧ 0 < a then Real.pi / 2
  else if b = 0 ∧ a < 0 then -(Real.pi / 2)
  else 0

/-- `teste.py` `calcular_direcao(ponto1, ponto2)` with points given as
`(latitude, longitude)` pairs. -/
noncomputable def calcular_direcao (ponto1 ponto2 : ℝ × ℝ) : ℝ :=
  degrees (atan2
    (Real.cos (radians ponto2.1) * Real.sin (radians (ponto2.2 - ponto1.2)))
    (Real.cos (radians ponto1.1) * Real.sin (radians ponto2.1) -
      Real.sin (radians ponto1.1) * Real.cos (radians ponto2.1) *
        Real.cos (radians (ponto2.2 - ponto1.2))))

/-- The inline direction-consistency test of `extrair_nomes_das_ruas`
(`teste.py` lines 99-102): the *raw* absolute difference of the two
bearings is below 45 degrees. -/
def direcao_consistente (prev cur next : ℝ × ℝ) : Prop :=
  |calcular_direcao prev cur - calcular_direcao cur next| < 45

/-- Modelled from the spec: the spec's `isConsistent` criterion compares the
absolute bearing difference *circularly normalized into `[0, 180]`*; this
normalization (absent from the source) is the definition under test. -/
noncomputable def normDiff (d1 d2 : ℝ) : ℝ :=
  let m := |d1 - d2| - 360 * ((⌊|d1 - d2| / 360⌋ : ℤ) : ℝ)
  if m ≤ 180 then m else 360 - m

/-- One step of an OpenRouteService route: its (optional) `name` and its
`way_points` index list. -/
structure Step where
  name : Option String
  way_points : List ℕ

open Classical in
/-- The body of the inner loop of `teste.py` `extrair_nomes_das_ruas`,
acting on the state `(nomes_ruas, rua_anterior)`. -/
noncomputable def processStep (coordenadas : List (ℝ × ℝ))
    (estado : List String × Option String) (step : Step) :
    List String × Option String :=
  if step.name.getD "Sem nome" ≠ "Sem nome" then
    if estado.2 = none ∨ estado.2 = some (step.name.getD "Sem nome") then
      (estado.1 ++ [step.name.getD "Sem nome"], some (step.name.getD "Sem nome"))
    else
      if 2 ≤ step.way_points.length then
        if 0 < step.way_points.getD 0 0 ∧
            step.way_points.getD 0 0 + 1 < coordenadas.length then
          if |calcular_direcao
                (coordenadas.getD (step.way_points.getD 0 0 - 1) (0, 0))
                (coordenadas.getD (step.way_points.getD 0 0) (0, 0)) -
              calcular_direcao
                (coordenadas.getD (step.way_points.getD 0 0) (0, 0))
                (coordenadas.getD (step.way_points.getD 0 0 + 1) (0, 0))| < 45
          then
            (estado.1 ++ [step.name.getD "Sem nome"],
             some (step.name.getD "Sem nome"))
          else estado
        else estado
      else estado
  else estado

/-- `teste.py` `extrair_nomes_das_ruas(data, coordenadas)`, with `data`
reduced to its list of segments, each a list of steps. -/
noncomputable def extrair_nomes_das_ruas (segments : List (List Step))
    (coordenadas : List (ℝ × ℝ)) : List String :=
  (segments.foldl (fun st seg => seg.foldl (processStep coordenadas) st)
    ([], none)).1

/-- The guard under which `extrair_nomes_das_ruas` accepts a street whose
name differs from `rua_anterior`: enough way-points, in-range first index,
and raw bearing difference below 45 degrees. -/
def aceitaDirecao (coordenadas : List (ℝ × ℝ)) (step : Step) : Prop :=
  2 ≤ step.way_points.length ∧
  0 < step.way_points.getD 0 0 ∧
  step.way_points.getD 0 0 + 1 < coordenadas.length ∧
  |calcular_direcao
      (coordenadas.getD (step.way_points.getD 0 0 - 1) (0, 0))
      (coordenadas.getD (step.way_points.getD 0 0) (0, 0)) -
    calcular_direcao
      (coordenadas.getD (step.way_points.getD 0 0) (0, 0))
      (coordenadas.getD (step.way_points.getD 0 0 + 1) (0, 0))| < 45

/-! ## `teste2.py` — haversine distance and polyline length  -/

/-- `teste2.py` `BusRouteNavigator._haversine_distance(coord1, coord2)`,
with coordinates given as `(longitude, latitude)` pairs, on a sphere of
radius 6 371 000 m. -/
noncomputable def _haversine_distance (coord1 coord2 : ℝ × ℝ) : ℝ :=
  let lat1 := coord1.2; let lon1 := coord1.1
  let lat2 := coord2.2; let lon2 := coord2.1
  let phi1 := radians lat1
  let phi2 := radians lat2
  let delta_phi := radians (lat2 - lat1)
  let delta_lambda := radians (lon2 - lon1)
  let a := Real.sin (delta_phi / 2) ^ 2 +
    Real.cos phi1 * Real.cos phi2 * Real.sin (delta_lambda / 2) ^ 2
  let c := 2 * atan2 (Real.sqrt a) (Real.sqrt (1 - a))
  6371000 * c

/-- The central angle subtended by the two coordinates: what
`_haversine_distance` multiplies the Earth radius by. -/
noncomputable def centralAngle (coord1 coord2 : ℝ × ℝ) : ℝ :=
  let a := Real.sin (radians (coord2.2 - coord1.2) / 2) ^ 2 +
    Real.cos (radians coord1.2) * Real.cos (radians coord2.2) *
      Real.sin (radians (coord2.1 - coord1.1) / 2) ^ 2
  2 * atan2 (Real.sqrt a) (Real.sqrt (1 - a))

/-- `teste2.py` `BusRouteNavigator._calculate_segment_length(coords)`:
sum of consecutive haversine distances. -/
noncomputable def _calculate_segment_length : List (ℝ × ℝ) → ℝ
  | [] => 0
  | [_] => 0
  | c1 :: c2 :: resto =>
    _haversine_distance c1 c2 + _calculate_segment_length (c2 :: resto)

/-! ## Helper lemmas about `Chain'` and the consolidation loops -/

theorem chain'_concat_of {α : Type} {R : α → α → Prop} {l : List α} {x : α}
    (hl : List.Chain' R l) (hx : ∀ a, l.getLast? = some a → R a x) :
    List.Chain' R (l ++ [x]) := by
  rw [List.chain'_append]
  refine ⟨hl, List.chain'_singleton x, ?_⟩
  intro a ha y hy
  simp only [List.head?_cons, Option.mem_def, Option.some.injEq] at hy
  subst hy
  exact hx a ha

theorem chain'_concat_decomp {α : Type} {R : α → α → Prop} {l : List α}
    {x : α} (h : List.Chain' R (l ++ [x])) :
    List.Chain' R l ∧ ∀ a, l.getLast? = some a → R a x := by
  rw [List.chain'_append] at h
  refine ⟨h.1, ?_⟩
  intro a ha
  exact h.2.2 a ha x (by simp)

/-- Adjacent names stay distinct throughout the consolidation loop. -/
theorem busLoop_chain (net : CoordQ → NetResult) :
    ∀ (segs : List Segment) (cache : CacheT) (current : Option StreetRun)
      (acc : List StreetRun),
      List.Chain' (fun a b => a.name ≠ b.name) (acc ++ current.toList) →
      (current = none → acc = []) →
      List.Chain' (fun a b => a.name ≠ b.name)
        (busLoop net segs cache current acc).1 := by
  intro segs
  induction segs with
  | nil =>
    intro cache current acc h1 _
    simpa [busLoop] using h1
  | cons seg resto ih =>
    intro cache current acc h1 h2
    cases hr : (get_street_info cache (midPoint seg) (net (midPoint seg))).1 with
    | none =>
      simp only [busLoop, hr]
      exact ih _ _ _ h1 h2
    | some info =>
      cases current with
      | none =>
        simp only [busLoop, hr]
        have hacc : acc = [] := h2 rfl
        subst hacc
        exact ih _ _ _ (by simp) (by simp)
      | some cur =>
        by_cases hname : info.name = cur.name
        · simp only [busLoop, hr, if_pos hname]
          refine ih _ _ _ ?_ (by simp)
          rcases chain'_concat_decomp (by simpa using h1) with ⟨hl, hlast⟩
          have hcat : List.Chain' (fun a b => a.name ≠ b.name)
              (acc ++ [estendeRua cur seg]) := by
            refine chain'_concat_of hl ?_
            intro a ha
            have : a.name ≠ cur.name := hlast a ha
            simpa [estendeRua] using this
          simpa using hcat
        · simp only [busLoop, hr, if_neg hname]
          refine ih _ _ _ ?_ (by simp)
          have hchain : List.Chain' (fun a b => a.name ≠ b.name)
              ((acc ++ [cur]) ++ [novaRua info seg]) := by
            refine chain'_concat_of (by simpa using h1) ?_
            intro a ha
            rw [List.getLast?_concat] at ha
            cases ha
            simpa [novaRua] using fun hh => hname hh.symm
          simpa using hchain

/-- Adjacent names stay distinct throughout the itinerary loop of
`main.py`. -/
theorem itineraryLoop_chain (net : CoordQ → NetResultM) :
    ∀ (pts : List CoordQ) (cache : CacheM) (prev : Option String)
      (acc : List String) (n : ℕ),
      List.Chain' (· ≠ ·) acc →
      (prev = none → acc = []) →
      (∀ s, prev = some s → acc.getLast? = some s) →
      List.Chain' (· ≠ ·) (itineraryLoop net pts cache prev acc n).1 := by
  intro pts
  induction pts with
  | nil =>
    intro cache prev acc n h1 _ _
    simpa [itineraryLoop] using h1
  | cons p resto ih =>
    intro cache prev acc n h1 h2 h3
    cases hv : is_valid_street
        (geocode_reverse p.2 p.1 cache (net (p.2, p.1))).1 with
    | none =>
      simp only [itineraryLoop, hv]
      exact ih _ _ _ _ h1 h2 h3
    | some s =>
      by_cases hc : s ≠ "" ∧ some s ≠ prev
      · simp only [itineraryLoop, hv, if_pos hc]
        refine ih _ _ _ _ ?_ (by simp) ?_
        · cases prev with
          | none =>
            have hacc : acc = [] := h2 rfl
            subst hacc
            simp
          | some q =>
            refine chain'_concat_of h1 ?_
            intro a ha
            have hq : acc.getLast? = some q := h3 q rfl
            rw [hq] at ha
            cases ha
            intro hh
            exact hc.2 (by rw [hh])
        · intro t ht
          cases ht
          exact List.getLast?_concat _
      · simp only [itineraryLoop, hv, if_neg hc]
        exact ih _ _ _ _ h1 h2 h3

/-- C3: in every output of the consolidators — `get_bus_route_streets` in
`teste2.py` and `get_street_itinerary` in `main.py` — no two consecutive
entries carry equal street names (adjacent-duplicate collapse only). -/
theorem c3_adjacent_distinct :
    (∀ (net : CoordQ → NetResult) (cache : CacheT) (segments : List Segment),
      List.Chain' (fun a b => a.name ≠ b.name)
        (get_bus_route_streets net cache segments).1) ∧
    (∀ (net : CoordQ → NetResultM) (cache : CacheM) (points : List CoordQ),
      List.Chain' (· ≠ ·) (get_street_itinerary net cache points).1) := by
  constructor
  · intro net cache segments
    exact busLoop_chain net segments cache none [] (by simp) (by simp)
  · intro net cache points
    exact itineraryLoop_chain net points cache none [] 0 (by simp) (by simp)
      (by intro s h; cases h)

/-- The length carried by an optional current run. -/
def optLen : Option StreetRun → ℝ
  | none => 0
  | some c => c.length

/-- Length bookkeeping of the consolidation loop. -/
theorem busLoop_sum (net : CoordQ → NetResult) :
    ∀ (segs : List Segment) (cache : CacheT) (current : Option StreetRun)
      (acc : List StreetRun),
      ((busLoop net segs cache current acc).1.map StreetRun.length).sum =
        (acc.map StreetRun.length).sum + optLen current +
          nonSkippedLength net cache segs := by
  intro segs
  induction segs with
  | nil =>
    intro cache current acc
    cases current with
    | none => simp [busLoop, nonSkippedLength, optLen]
    | some c => simp [busLoop, nonSkippedLength, optLen]
  | cons seg resto ih =>
    intro cache current acc
    cases hr : (get_street_info cache (midPoint seg) (net (midPoint seg))).1 with
    | none =>
      simp only [busLoop, nonSkippedLength, hr]
      exact ih _ _ _
    | some info =>
      cases current with
      | none =>
        simp only [busLoop, nonSkippedLength, hr]
        rw [ih]
        simp [novaRua, optLen]
        ring
      | some cur =>
        by_cases hname : info.name = cur.name
        · simp only [busLoop, nonSkippedLength, hr, if_pos hname]
          rw [ih]
          simp [estendeRua, optLen]
          ring
        · simp only [busLoop, nonSkippedLength, hr, if_neg hname]
          rw [ih]
          simp [novaRua, optLen]
          ring

/-- C5: the sum of `length` over all runs returned by
`get_bus_route_streets` equals the sum of `length` over the non-skipped
input segments (skipped segments contribute nothing and do not close the
current run); the equality is exact in the real-number model. -/
theorem c5_length_conservation :
    ∀ (net : CoordQ → NetResult) (cache : CacheT) (segments : List Segment),
      ((get_bus_route_streets net cache segments).1.map StreetRun.length).sum
        = nonSkippedLength net cache segments := by
  intro net cache segments
  have h := busLoop_sum net segments cache none []
  simpa [get_bus_route_streets, optLen] using h

/-- C4: counterexample — `is_valid_street` accepts a name containing the
connector `" and "`, accepts a descriptor whose way type is in the
unsuitable set, and returns (rather than rejects) the empty name. -/
theorem c4_counterexample :
    is_valid_street (some ⟨some "Rua X and Y", none⟩) = some "Rua X and Y" ∧
    is_valid_street (some ⟨some "Avenida Central", some "footway"⟩) =
      some "Avenida Central" ∧
    is_valid_street (some ⟨some "", none⟩) = some "" := by
  exact ⟨rfl, rfl, rfl⟩

/-- C4 (amended): `is_valid_street` rejects exactly the absent descriptor
and the names containing a case-insensitive `" e "` or a `"&"`; every other
descriptor — including empty names, names containing `" and "`, and
descriptors whose way type is unsuitable — has its name returned. -/
theorem c4_filter (a : AddressM) :
    is_valid_street none = none ∧
    (is_valid_street (some a) = none ↔
      (∃ l1 l2, (a.road.getD "").toList.map Char.toLower =
        l1 ++ " e ".toList ++ l2) ∨
      (∃ l1 l2, (a.road.getD "").toList = l1 ++ "&".toList ++ l2)) ∧
    (is_valid_street (some a) ≠ none →
      is_valid_street (some a) = some (a.road.getD "")) := by
  refine ⟨rfl, ?_, ?_⟩
  · have hiff : is_valid_street (some a) = none ↔
        (contemSub " e ".toList ((a.road.getD "").toList.map Char.toLower)
          || contemSub "&".toList (a.road.getD "").toList) = true := by
      simp only [is_valid_street]
      split_ifs with h
      · exact iff_of_true rfl h
      · exact iff_of_false (by simp) h
    rw [hiff, Bool.or_eq_true, contemSub_iff, contemSub_iff]
  · intro h
    simp only [is_valid_street] at h ⊢
    split_ifs at h ⊢ with hcond
    · exact absurd rfl h
    · rfl

/-- C4 witness: a concrete name containing `" e "` is rejected. -/
theorem c4_witness :
    is_valid_street (some ⟨some "Rua A e B", none⟩) = none := by
  refine (c4_filter ⟨some "Rua A e B", none⟩).2.1.mpr
    (Or.inl ⟨"rua a".toList, "b".toList, ?_⟩)
  decide

/-- C6: counterexample — a cache-warm lookup issues no network call, but
returns a *different* descriptor from the one produced by the resolution
that populated the cache: a way type absent in the payload is returned as
`none` on the first call and as `"unknown"` on the cached call. -/
theorem c6_counterexample :
    (get_street_info
        ((get_street_info [] (0, 0) (.ok ⟨none, some "X", none⟩)).2.1)
        (0, 0) .httpError).2.2 = false ∧
    (get_street_info
        ((get_street_info [] (0, 0) (.ok ⟨none, some "X", none⟩)).2.1)
        (0, 0) .httpError).1 ≠
      (get_street_info [] (0, 0) (.ok ⟨none, some "X", none⟩)).1 := by
  refine ⟨rfl, ?_⟩
  decide

/-- C7: counterexample — in `teste2.py`, a payload with no road field does
*not* resolve to `NotFound`: the placeholder name `"Rua Desconhecida"` is
returned and written into the cache. -/
theorem c7_counterexample :
    (get_street_info [] (0, 0) (.ok ⟨none, none, none⟩)).1 =
      some ⟨"Rua Desconhecida", none⟩ ∧
    (get_street_info [] (0, 0) (.ok ⟨none, none, none⟩)).2.1 ≠ [] := by
  refine ⟨rfl, ?_⟩
  decide

/-- C8: counterexample — an empty coordinate list does not fail with any
`InvalidInput` signal: `get_street_itinerary` returns the ordinary value
`[]`, with the cache untouched and zero network requests. -/
theorem c8_counterexample :
    get_street_itinerary (fun _ => .httpError) [] [] = ([], [], 0) := rfl

/-- C8 (amended): no fatal condition exists.  An empty input returns an
empty itinerary with no network or cache activity, and per-point lookup
failures are recovered as skips without aborting: with every lookup
failing, all points are processed (one request each) and the result is the
empty itinerary, not an error. -/
theorem c8_no_failure :
    (∀ (net : CoordQ → NetResultM) (cache : CacheM),
      get_street_itinerary net cache [] = ([], cache, 0)) ∧
    (∀ points : List CoordQ,
      get_street_itinerary (fun _ => .httpError) [] points =
        ([], [], points.length)) := by
  constructor
  · intro net cache
    rfl
  · intro points
    have key : ∀ (pts : List CoordQ) (prev : Option String)
        (acc : List String) (n : ℕ),
        itineraryLoop (fun _ => .httpError) pts [] prev acc n =
          (acc, [], n + pts.length) := by
      intro pts
      induction pts with
      | nil =>
        intro prev acc n
        simp [itineraryLoop]
      | cons p resto ih =>
        intro prev acc n
        have hstep : itineraryLoop (fun _ => .httpError) (p :: resto) []
            prev acc n =
            itineraryLoop (fun _ => .httpError) resto [] prev acc (n + 1) := by
          simp [itineraryLoop, geocode_reverse, cacheLookupM, is_valid_street]
        rw [hstep, ih]
        have : n + 1 + resto.length = n + (resto.length + 1) := by omega
        simp [this]
    simpa [get_street_itinerary] using key points none [] 0

/-! ## Cache behaviour of `get_street_info` and `geocode_reverse` -/

theorem cacheLookup_save (cache : CacheT) (k : CoordQ) (v : String × String) :
    cacheLookup (cacheSave cache k v) k = some v := by
  simp [cacheSave, cacheLookup]

theorem htUnsuitable_getD {o : Option String} (h : htUnsuitable o = true) :
    o.getD "" ∈ UNSUITABLE_WAYS := by
  cases o with
  | none => simp [htUnsuitable] at h
  | some s => simpa [htUnsuitable] using h

theorem orUnknown_suitable {o : Option String} (h : htUnsuitable o = false) :
    orUnknown o ∉ UNSUITABLE_WAYS := by
  cases o with
  | none =>
    simp only [orUnknown]
    decide
  | some s =>
    simp only [htUnsuitable, decide_eq_false_iff_not] at h
    simp only [orUnknown]
    split_ifs with hs
    · decide
    · exact h

/-- C6 (amended): once a resolution has populated the cache for a
coordinate, a subsequent resolve issues no network call, leaves the cache
unchanged, returns `none` whenever the populating resolution did (the
"unsuitable" sentinel), and otherwise returns the populated descriptor
*except* that a missing (or empty) way type is returned as `"unknown"`
rather than identically. -/
theorem c6_cached_resolution (cache : CacheT) (coord : CoordQ)
    (net net2 : NetResult)
    (hmiss : cacheLookup cache (coord.2, coord.1) = none)
    (hwarm : (cacheLookup ((get_street_info cache coord net).2.1)
      (coord.2, coord.1)).isSome = true) :
    (get_street_info ((get_street_info cache coord net).2.1) coord net2).2.2
      = false ∧
    (get_street_info ((get_street_info cache coord net).2.1) coord net2).2.1
      = (get_street_info cache coord net).2.1 ∧
    ((get_street_info cache coord net).1 = none →
      (get_street_info ((get_street_info cache coord net).2.1) coord net2).1
        = none) ∧
    (∀ d, (get_street_info cache coord net).1 = some d →
      (get_street_info ((get_street_info cache coord net).2.1) coord net2).1
        = some ⟨d.name, some (orUnknown d.type)⟩) := by
  cases net with
  | httpError => simp [get_street_info, hmiss] at hwarm
  | malformed => simp [get_street_info, hmiss] at hwarm
  | ok d =>
    by_cases hu :
        htUnsuitable (pyOrStr d.extratags_highway d.address_road_type) = true
    · have h1 : get_street_info cache coord (.ok d) =
          (none,
           cacheSave cache (coord.2, coord.1)
             ("VIA INADEQUADA",
              (pyOrStr d.extratags_highway d.address_road_type).getD ""),
           true) := by
        simp [get_street_info, hmiss, hu]
      have h2 : get_street_info (get_street_info cache coord (.ok d)).2.1
          coord net2 = (none, (get_street_info cache coord (.ok d)).2.1,
            false) := by
        rw [h1]
        simp only [get_street_info, cacheLookup_save]
        rw [if_pos (htUnsuitable_getD hu)]
      rw [h2, h1]
      refine ⟨rfl, rfl, fun _ => rfl, ?_⟩
      intro d' hd'
      cases hd'
    · have hu' : htUnsuitable
          (pyOrStr d.extratags_highway d.address_road_type) = false :=
        Bool.eq_false_iff.mpr hu
      have h1 : get_street_info cache coord (.ok d) =
          (some ⟨d.address_road.getD "Rua Desconhecida",
                 pyOrStr d.extratags_highway d.address_road_type⟩,
           cacheSave cache (coord.2, coord.1)
             (d.address_road.getD "Rua Desconhecida",
              orUnknown (pyOrStr d.extratags_highway d.address_road_type)),
           true) := by
        simp [get_street_info, hmiss, hu']
      have h2 : get_street_info (get_street_info cache coord (.ok d)).2.1
          coord net2 =
          (some ⟨d.address_road.getD "Rua Desconhecida",
                 some (orUnknown
                   (pyOrStr d.extratags_highway d.address_road_type))⟩,
           (get_street_info cache coord (.ok d)).2.1, false) := by
        rw [h1]
        simp only [get_street_info, cacheLookup_save]
        rw [if_neg (orUnknown_suitable hu')]
      rw [h2, h1]
      refine ⟨rfl, rfl, ?_, ?_⟩
      · intro h
        cases h
      · intro d' hd'
        cases hd'
        rfl

/-- C6 witness: concrete warm-cache resolution with no network call. -/
theorem c6_witness :
    cacheLookup ([] : CacheT) ((0 : ℚ), (0 : ℚ)) = none ∧
    (get_street_info
        ((get_street_info [] (0, 0) (.ok ⟨none, some "X", none⟩)).2.1)
        (0, 0) .malformed).1 = some ⟨"X", some "unknown"⟩ := by
  refine ⟨rfl, ?_⟩
  have h := c6_cached_resolution [] (0, 0) (.ok ⟨none, some "X", none⟩)
    .malformed rfl (by decide)
  exact h.2.2.2 ⟨"X", none⟩ rfl

/-- C7 (amended): an HTTP failure or a malformed payload makes both
resolvers return `NotFound` with the cache unchanged; a missing (or empty)
road field does so in `main.py`'s `geocode_reverse`, while `teste2.py`'s
`get_street_info` instead returns the cached placeholder
`"Rua Desconhecida"` (see the counterexample). -/
theorem c7_failure_modes :
    (∀ (cache : CacheT) (coord : CoordQ),
      cacheLookup cache (coord.2, coord.1) = none →
      get_street_info cache coord .httpError = (none, cache, true) ∧
      get_street_info cache coord .malformed = (none, cache, true)) ∧
    (∀ (cache : CacheM) (lat lon : ℚ),
      cacheLookupM cache (lat, lon) = none →
      geocode_reverse lat lon cache .httpError = (none, cache, true) ∧
      geocode_reverse lat lon cache .malformed = (none, cache, true) ∧
      (∀ a : AddressM, (a.road = none ∨ a.road = some "") →
        geocode_reverse lat lon cache (.ok a) = (none, cache, true))) := by
  constructor
  · intro cache coord h
    constructor <;> simp [get_street_info, h]
  · intro cache lat lon h
    refine ⟨by simp [geocode_reverse, h], by simp [geocode_reverse, h], ?_⟩
    rintro a (ha | ha) <;> simp [geocode_reverse, h, ha]

/-- C7 witness: concrete failed resolutions leave the empty cache empty. -/
theorem c7_witness :
    cacheLookupM ([] : CacheM) (0, 0) = none ∧
    geocode_reverse 0 0 [] (.ok ⟨some "", none⟩) = (none, [], true) := by
  refine ⟨rfl, ?_⟩
  exact (c7_failure_modes.2 [] 0 0 rfl).2.2 ⟨some "", none⟩ (Or.inr rfl)

/-! ## Facts about `atan2`, bearings and the haversine distance -/

theorem atan2_zero_neg {b : ℝ} (hb : b < 0) : atan2 0 b = Real.pi := by
  simp only [atan2]
  rw [if_neg (by linarith), if_pos ⟨hb, le_refl 0⟩, zero_div,
    Real.arctan_zero, zero_add]

theorem atan2_neg_neg {a b : ℝ} (ha : a < 0) (hb : b < 0) :
    atan2 a b = Real.arctan (a / b) - Real.pi := by
  simp only [atan2]
  rw [if_neg (by linarith),
    if_neg (fun h => absurd h.2 (not_le.mpr ha)), if_pos ⟨hb, ha⟩]

theorem atan2_pos_zero {a : ℝ} (ha : 0 < a) : atan2 a 0 = Real.pi / 2 := by
  unfold atan2
  rw [if_neg (lt_irrefl 0), if_neg (fun h => lt_irrefl 0 h.1),
    if_neg (fun h => lt_irrefl 0 h.1), if_pos ⟨rfl, ha⟩]

/-- The value `math.atan2` returns always lies in `(-π, π]`. -/
theorem atan2_range (a b : ℝ) : -Real.pi < atan2 a b ∧ atan2 a b ≤ Real.pi := by
  have hpi : 0 < Real.pi := Real.pi_pos
  simp only [atan2]
  split_ifs with h1 h2 h3 h4 h5
  · have hu := Real.arctan_lt_pi_div_two (a / b)
    have hl := Real.neg_pi_div_two_lt_arctan (a / b)
    constructor <;> linarith
  · have hle : a / b ≤ 0 := div_nonpos_iff.mpr (Or.inl ⟨h2.2, h2.1.le⟩)
    have h0 : Real.arctan (a / b) ≤ 0 := by
      have := Real.arctan_strictMono.monotone hle
      rwa [Real.arctan_zero] at this
    have hl := Real.neg_pi_div_two_lt_arctan (a / b)
    constructor <;> linarith
  · have hlt : 0 < a / b := div_pos_iff.mpr (Or.inr ⟨h3.2, h3.1⟩)
    have h0 : 0 < Real.arctan (a / b) := by
      have := Real.arctan_strictMono hlt
      rwa [Real.arctan_zero] at this
    have hu := Real.arctan_lt_pi_div_two (a / b)
    constructor <;> linarith
  · constructor <;> linarith
  · constructor <;> linarith
  · constructor <;> linarith

/-- Every bearing computed by `calcular_direcao` lies in `(-180, 180]`. -/
theorem calcular_direcao_range (p q : ℝ × ℝ) :
    -180 < calcular_direcao p q ∧ calcular_direcao p q ≤ 180 := by
  have hpi : 0 < Real.pi := Real.pi_pos
  obtain ⟨h1, h2⟩ := atan2_range
    (Real.cos (radians q.1) * Real.sin (radians (q.2 - p.2)))
    (Real.cos (radians p.1) * Real.sin (radians q.1) -
      Real.sin (radians p.1) * Real.cos (radians q.1) *
        Real.cos (radians (q.2 - p.2)))
  simp only [calcular_direcao, degrees]
  constructor
  · rw [lt_div_iff₀ hpi]
    nlinarith
  · rw [div_le_iff₀ hpi]
    nlinarith

/-- Bearing due south (same longitude, decreasing latitude, concretely from
latitude 45 to latitude 0) is exactly 180 degrees. -/
theorem dir_south : calcular_direcao (45, 0) (0, 0) = 180 := by
  have h45 : radians (45 : ℝ) = Real.pi / 4 := by rw [radians]; ring
  have h0 : radians (0 : ℝ) = 0 := by rw [radians]; ring
  show degrees (atan2
    (Real.cos (radians (0 : ℝ)) * Real.sin (radians ((0 : ℝ) - 0)))
    (Real.cos (radians (45 : ℝ)) * Real.sin (radians (0 : ℝ)) -
      Real.sin (radians (45 : ℝ)) * Real.cos (radians (0 : ℝ)) *
        Real.cos (radians ((0 : ℝ) - 0)))) = 180
  have e1 : Real.cos (radians (0 : ℝ)) * Real.sin (radians ((0 : ℝ) - 0))
      = 0 := by
    norm_num [h0]
  have e2 : Real.cos (radians (45 : ℝ)) * Real.sin (radians (0 : ℝ)) -
      Real.sin (radians (45 : ℝ)) * Real.cos (radians (0 : ℝ)) *
        Real.cos (radians ((0 : ℝ) - 0)) = -(Real.sqrt 2 / 2) := by
    norm_num [h0, h45, Real.sin_pi_div_four]
  rw [e1, e2, atan2_zero_neg (neg_lt_zero.mpr (by positivity)), degrees]
  field_simp

/-- Bearing from the origin to latitude −45, longitude −30: south-west,
`180·arctan(1/2)/π − 180` degrees. -/
theorem dir_sw : calcular_direcao (0, 0) (-45, -30) =
    180 * Real.arctan (1 / 2) / Real.pi - 180 := by
  have hm45 : radians (-45 : ℝ) = -(Real.pi / 4) := by rw [radians]; ring
  have hm30 : radians ((-30 : ℝ) - 0) = -(Real.pi / 6) := by rw [radians]; ring
  have h0 : radians (0 : ℝ) = 0 := by rw [radians]; ring
  show degrees (atan2
    (Real.cos (radians (-45 : ℝ)) * Real.sin (radians ((-30 : ℝ) - 0)))
    (Real.cos (radians (0 : ℝ)) * Real.sin (radians (-45 : ℝ)) -
      Real.sin (radians (0 : ℝ)) * Real.cos (radians (-45 : ℝ)) *
        Real.cos (radians ((-30 : ℝ) - 0)))) =
    180 * Real.arctan (1 / 2) / Real.pi - 180
  have e1 : Real.cos (radians (-45 : ℝ)) * Real.sin (radians ((-30 : ℝ) - 0))
      = -(Real.sqrt 2 / 4) := by
    rw [hm45, hm30, Real.cos_neg, Real.sin_neg, Real.cos_pi_div_four,
      Real.sin_pi_div_six]
    ring
  have e2 : Real.cos (radians (0 : ℝ)) * Real.sin (radians (-45 : ℝ)) -
      Real.sin (radians (0 : ℝ)) * Real.cos (radians (-45 : ℝ)) *
        Real.cos (radians ((-30 : ℝ) - 0)) = -(Real.sqrt 2 / 2) := by
    rw [h0, hm45, Real.sin_neg, Real.sin_pi_div_four]
    norm_num
  have hs2 : (0 : ℝ) < Real.sqrt 2 := by positivity
  have hratio : -(Real.sqrt 2 / 4) / -(Real.sqrt 2 / 2) = 1 / 2 := by
    rw [neg_div_neg_eq, div_div_div_comm]
    rw [div_self (ne_of_gt hs2)]
    norm_num
  rw [e1, e2, atan2_neg_neg (neg_lt_zero.mpr (by positivity))
    (neg_lt_zero.mpr (by positivity)), hratio, degrees]
  field_simp
  ring

/-- Bearing between two equator points with increasing longitude (less than
half a revolution apart) is exactly 90 degrees. -/
theorem dir_equator (a b : ℝ) (hab : a < b) (h180 : b - a < 180) :
    calcular_direcao (0, a) (0, b) = 90 := by
  have hpi : 0 < Real.pi := Real.pi_pos
  have h0 : radians (0 : ℝ) = 0 := by rw [radians]; ring
  show degrees (atan2
    (Real.cos (radians (0 : ℝ)) * Real.sin (radians (b - a)))
    (Real.cos (radians (0 : ℝ)) * Real.sin (radians (0 : ℝ)) -
      Real.sin (radians (0 : ℝ)) * Real.cos (radians (0 : ℝ)) *
        Real.cos (radians (b - a)))) = 90
  have hsin : 0 < Real.sin (radians (b - a)) := by
    apply Real.sin_pos_of_pos_of_lt_pi
    · rw [radians]
      have hba : 0 < b - a := by linarith
      positivity
    · rw [radians, div_lt_iff₀ (by norm_num : (0 : ℝ) < 180)]
      nlinarith
  have e1 : Real.cos (radians (0 : ℝ)) * Real.sin (radians (b - a)) =
      Real.sin (radians (b - a)) := by
    rw [h0, Real.cos_zero, one_mul]
  have e2 : Real.cos (radians (0 : ℝ)) * Real.sin (radians (0 : ℝ)) -
      Real.sin (radians (0 : ℝ)) * Real.cos (radians (0 : ℝ)) *
        Real.cos (radians (b - a)) = 0 := by
    rw [h0]
    simp
  rw [e1, e2, atan2_pos_zero hsin, degrees]
  field_simp
  ring

/-- C9: a polyline with fewer than two coordinates has length 0, the
haversine distance from a coordinate to itself is 0, and the distance is
the central angle scaled by the Earth radius 6 371 000 m. -/
theorem c9_degenerate_and_radius :
    _calculate_segment_length [] = 0 ∧
    (∀ c : ℝ × ℝ, _calculate_segment_length [c] = 0) ∧
    (∀ c : ℝ × ℝ, _haversine_distance c c = 0) ∧
    (∀ c1 c2 : ℝ × ℝ,
      _haversine_distance c1 c2 = 6371000 * centralAngle c1 c2) := by
  refine ⟨rfl, fun c => rfl, ?_, fun c1 c2 => rfl⟩
  intro c
  have h0 : radians (c.2 - c.2) = 0 := by rw [radians]; ring
  have h1 : radians (c.1 - c.1) = 0 := by rw [radians]; ring
  have hat : atan2 0 1 = 0 := by
    simp only [atan2]
    rw [if_pos (by norm_num : (0 : ℝ) < 1), zero_div, Real.arctan_zero]
  simp only [_haversine_distance, h0, h1]
  norm_num [hat]

/-- C10: the haversine distance is symmetric in its two arguments. -/
theorem c10_haversine_symm : ∀ c1 c2 : ℝ × ℝ,
    _haversine_distance c1 c2 = _haversine_distance c2 c1 := by
  intro c1 c2
  have hlat : Real.sin (radians (c2.2 - c1.2) / 2) ^ 2 =
      Real.sin (radians (c1.2 - c2.2) / 2) ^ 2 := by
    have h : radians (c2.2 - c1.2) / 2 = -(radians (c1.2 - c2.2) / 2) := by
      simp only [radians]
      ring
    rw [h, Real.sin_neg]
    ring
  have hlon : Real.sin (radians (c2.1 - c1.1) / 2) ^ 2 =
      Real.sin (radians (c1.1 - c2.1) / 2) ^ 2 := by
    have h : radians (c2.1 - c1.1) / 2 = -(radians (c1.1 - c2.1) / 2) := by
      simp only [radians]
      ring
    rw [h, Real.sin_neg]
    ring
  simp only [_haversine_distance]
  rw [hlat, hlon,
    mul_comm (Real.cos (radians c1.2)) (Real.cos (radians c2.2))]

/-! ## C2: the direction-consistency criterion -/

/-- C2 (amended): the source's consistency test holds iff the *raw*
absolute bearing difference is below 45 degrees; equivalently — because
bearings lie in `(-180, 180]` — iff the circularly normalized difference
is below 45 *and* the raw difference does not exceed 180.  No circular
normalization is applied by the code, so nearly parallel bearings on
opposite sides of ±180 fail the test. -/
theorem c2_consistency_criterion (prev cur next : ℝ × ℝ) :
    direcao_consistente prev cur next ↔
      (normDiff (calcular_direcao prev cur) (calcular_direcao cur next) < 45
        ∧ |calcular_direcao prev cur - calcular_direcao cur next| ≤ 180) := by
  obtain ⟨ha1, ha2⟩ := calcular_direcao_range prev cur
  obtain ⟨hb1, hb2⟩ := calcular_direcao_range cur next
  set d1 := calcular_direcao prev cur with hd1
  set d2 := calcular_direcao cur next with hd2
  have hD : |d1 - d2| < 360 := abs_lt.mpr ⟨by linarith, by linarith⟩
  have hD0 : 0 ≤ |d1 - d2| := abs_nonneg _
  have hfloor : (⌊|d1 - d2| / 360⌋ : ℤ) = 0 := by
    rw [Int.floor_eq_zero_iff, Set.mem_Ico]
    constructor
    · positivity
    · rw [div_lt_one (by norm_num : (0 : ℝ) < 360)]
      exact hD
  have hnorm : normDiff d1 d2 =
      if |d1 - d2| ≤ 180 then |d1 - d2| else 360 - |d1 - d2| := by
    simp only [normDiff, hfloor, Int.cast_zero, mul_zero, sub_zero]
  simp only [direcao_consistente, hnorm]
  split_ifs with h
  · constructor
    · intro hc
      exact ⟨hc, h⟩
    · intro hc
      exact hc.1
  · constructor
    · intro hc
      exact absurd (by linarith : |d1 - d2| ≤ 180) h
    · intro hc
      exact absurd hc.2 h

/-- C2: counterexample — at the concrete triple
`(45,0), (0,0), (-45,-30)` the first bearing is exactly 180° and the
second lies just past −180°, so the circularly normalized difference is
below 45° while the code's raw test fails: the claimed equivalence between
the source's consistency test and the normalized criterion is false. -/
theorem c2_counterexample :
    ¬ (direcao_consistente (45, 0) (0, 0) (-45, -30) ↔
        normDiff (calcular_direcao (45, 0) (0, 0))
          (calcular_direcao (0, 0) (-45, -30)) < 45) := by
  have hpi : 0 < Real.pi := Real.pi_pos
  have hu0 : 0 < Real.arctan (1 / 2) := by
    have h := Real.arctan_strictMono (show (0 : ℝ) < 1 / 2 by norm_num)
    rwa [Real.arctan_zero] at h
  have hu4 : Real.arctan (1 / 2) < Real.pi / 4 := by
    have h := Real.arctan_strictMono (show (1 / 2 : ℝ) < 1 by norm_num)
    rwa [Real.arctan_one] at h
  simp only [direcao_consistente, dir_south, dir_sw]
  set t : ℝ := 180 * Real.arctan (1 / 2) / Real.pi with ht
  have ht0 : 0 < t := by
    rw [ht]
    positivity
  have ht45 : t < 45 := by
    rw [ht, div_lt_iff₀ hpi]
    nlinarith
  have habs : |(180 : ℝ) - (t - 180)| = 360 - t := by
    have h : (180 : ℝ) - (t - 180) = 360 - t := by ring
    rw [h, abs_of_pos (by linarith)]
  have hN : normDiff 180 (t - 180) = t := by
    have hfl : (⌊(360 - t) / 360⌋ : ℤ) = 0 := by
      rw [Int.floor_eq_zero_iff, Set.mem_Ico]
      constructor
      · apply div_nonneg (by linarith) (by norm_num)
      · rw [div_lt_one (by norm_num : (0 : ℝ) < 360)]
        linarith
    simp only [normDiff, habs, hfl, Int.cast_zero, mul_zero, sub_zero]
    rw [if_neg (by linarith : ¬ (360 - t ≤ 180))]
    ring
  rw [habs, hN]
  intro h
  have := h.mpr ht45
  linarith

/-! ## C1: the street-name tie-break of `extrair_nomes_das_ruas` -/

/-- How `processStep` treats a step whose name conflicts with the previous
run: accepted iff the direction gate passes, skipped otherwise. -/
theorem processStep_conflict (coordenadas : List (ℝ × ℝ)) (acc : List String)
    (r : String) (step : Step)
    (h1 : step.name.getD "Sem nome" ≠ "Sem nome")
    (h2 : step.name.getD "Sem nome" ≠ r) :
    (aceitaDirecao coordenadas step →
      processStep coordenadas (acc, some r) step =
        (acc ++ [step.name.getD "Sem nome"],
         some (step.name.getD "Sem nome"))) ∧
    (¬ aceitaDirecao coordenadas step →
      processStep coordenadas (acc, some r) step = (acc, some r)) := by
  have hne : ¬ ((acc, some r).2 = none ∨
      (acc, some r).2 = some (step.name.getD "Sem nome")) := by
    rintro (h | h)
    · exact Option.some_ne_none r h
    · exact h2 (Option.some.inj h).symm
  constructor
  · intro ha
    simp only [processStep]
    rw [if_pos h1, if_neg hne]
    split_ifs with hl hi hd
    · rfl
    · exact absurd ha.2.2.2 hd
    · exact absurd ⟨ha.2.1, ha.2.2.1⟩ hi
    · exact absurd ha.1 hl
  · intro hna
    simp only [processStep]
    rw [if_pos h1, if_neg hne]
    split_ifs with hl hi hd
    · exact absurd ⟨hl, hi.1, hi.2, hd⟩ hna
    · rfl
    · rfl
    · rfl

/-- C1 (amended): when the resolved street name at a step differs from the
name of the run ending at the previous point, the step is *accepted*
(appended, becoming the new current name) exactly when the direction gate
passes — the step has at least two way-points, its first way-point index is
in range, and the raw bearing difference at that index is below 45° — and
skipped otherwise.  The name resolved at the next point is never consulted,
and direction consistency is an inclusion trigger, not a veto. -/
theorem c1_direction_gate (coordenadas : List (ℝ × ℝ)) (acc : List String)
    (r : String) (step : Step)
    (h1 : step.name.getD "Sem nome" ≠ "Sem nome")
    (h2 : step.name.getD "Sem nome" ≠ r) :
    (aceitaDirecao coordenadas step →
      processStep coordenadas (acc, some r) step =
        (acc ++ [step.name.getD "Sem nome"],
         some (step.name.getD "Sem nome"))) ∧
    (¬ aceitaDirecao coordenadas step →
      processStep coordenadas (acc, some r) step = (acc, some r)) :=
  processStep_conflict coordenadas acc r step h1 h2

/-- C1 witness: a concrete conflicting step whose direction gate passes is
accepted, not skipped. -/
theorem c1_witness :
    (⟨some "C", [1, 2]⟩ : Step).name.getD "Sem nome" ≠ "Sem nome" ∧
    (⟨some "C", [1, 2]⟩ : Step).name.getD "Sem nome" ≠ "A" ∧
    aceitaDirecao [((0 : ℝ), (0 : ℝ)), (0, 1), (0, 2)] ⟨some "C", [1, 2]⟩ ∧
    processStep [((0 : ℝ), (0 : ℝ)), (0, 1), (0, 2)] ([], some "A")
      ⟨some "C", [1, 2]⟩ = (["C"], some "C") := by
  have e1 : calcular_direcao ((0 : ℝ), (0 : ℝ)) (0, 1) = 90 :=
    dir_equator 0 1 (by norm_num) (by norm_num)
  have e2 : calcular_direcao ((0 : ℝ), (1 : ℝ)) (0, 2) = 90 :=
    dir_equator 1 2 (by norm_num) (by norm_num)
  have hacc : aceitaDirecao [((0 : ℝ), (0 : ℝ)), (0, 1), (0, 2)]
      ⟨some "C", [1, 2]⟩ := by
    refine ⟨by norm_num, by norm_num, by norm_num, ?_⟩
    show |calcular_direcao ((0 : ℝ), (0 : ℝ)) (0, 1) -
      calcular_direcao ((0 : ℝ), (1 : ℝ)) (0, 2)| < 45
    rw [e1, e2]
    norm_num
  refine ⟨by decide, by decide, hacc, ?_⟩
  have h := c1_direction_gate [((0 : ℝ), (0 : ℝ)), (0, 1), (0, 2)] [] "A"
    ⟨some "C", [1, 2]⟩ (by decide) (by decide)
  simpa using h.1 hacc

/-- C1: counterexample — on a concrete route the step named `C` disagrees
with the previous run (`A`) *and* with the next resolved name (`A`), yet
because its neighbouring bearings are consistent (both 90°) it is appended
rather than skipped: the output is `["A", "C", "A"]`, so skipping is not
the only possible outcome for such a point. -/
theorem c1_counterexample :
    extrair_nomes_das_ruas
      [[⟨some "A", [0, 1]⟩, ⟨some "C", [1, 2]⟩, ⟨some "A", [2, 3]⟩]]
      [((0 : ℝ), (0 : ℝ)), (0, 1), (0, 2), (0, 3)] = ["A", "C", "A"] := by
  have e1 : calcular_direcao ((0 : ℝ), (0 : ℝ)) (0, 1) = 90 :=
    dir_equator 0 1 (by norm_num) (by norm_num)
  have e2 : calcular_direcao ((0 : ℝ), (1 : ℝ)) (0, 2) = 90 :=
    dir_equator 1 2 (by norm_num) (by norm_num)
  have e3 : calcular_direcao ((0 : ℝ), (2 : ℝ)) (0, 3) = 90 :=
    dir_equator 2 3 (by norm_num) (by norm_num)
  have s1 : processStep [((0 : ℝ), (0 : ℝ)), (0, 1), (0, 2), (0, 3)]
      ([], none) ⟨some "A", [0, 1]⟩ = (["A"], some "A") := by
    simp [processStep]
  have s2 : processStep [((0 : ℝ), (0 : ℝ)), (0, 1), (0, 2), (0, 3)]
      (["A"], some "A") ⟨some "C", [1, 2]⟩ = (["A", "C"], some "C") := by
    have h := processStep_conflict [((0 : ℝ), (0 : ℝ)), (0, 1), (0, 2), (0, 3)]
      ["A"] "A" ⟨some "C", [1, 2]⟩ (by decide) (by decide)
    have hacc : aceitaDirecao [((0 : ℝ), (0 : ℝ)), (0, 1), (0, 2), (0, 3)]
        ⟨some "C", [1, 2]⟩ := by
      refine ⟨by norm_num, by norm_num, by norm_num, ?_⟩
      show |calcular_direcao ((0 : ℝ), (0 : ℝ)) (0, 1) -
        calcular_direcao ((0 : ℝ), (1 : ℝ)) (0, 2)| < 45
      rw [e1, e2]
      norm_num
    simpa using h.1 hacc
  have s3 : processStep [((0 : ℝ), (0 : ℝ)), (0, 1), (0, 2), (0, 3)]
      (["A", "C"], some "C") ⟨some "A", [2, 3]⟩ =
      (["A", "C", "A"], some "A") := by
    have h := processStep_conflict [((0 : ℝ), (0 : ℝ)), (0, 1), (0, 2), (0, 3)]
      ["A", "C"] "C" ⟨some "A", [2, 3]⟩ (by decide) (by decide)
    have hacc : aceitaDirecao [((0 : ℝ), (0 : ℝ)), (0, 1), (0, 2), (0, 3)]
        ⟨some "A", [2, 3]⟩ := by
      refine ⟨by norm_num, by norm_num, by norm_num, ?_⟩
      show |calcular_direcao ((0 : ℝ), (1 : ℝ)) (0, 2) -
        calcular_direcao ((0 : ℝ), (2 : ℝ)) (0, 3)| < 45
      rw [e2, e3]
      norm_num
    simpa using h.1 hacc
  simp only [extrair_nomes_das_ruas, List.foldl_cons, List.foldl_nil]
  rw [s1, s2, s3]

end PTSN
